import Mathlib

/-!
Shallow embedding of the spaced-repetition scheduling engine of the
vocabulary-learning repository (directory src/vocabulary_learning), together
with theorems settling the specification claims.

Modelling conventions:
* Times are rational numbers of hours since an arbitrary epoch.  The code
  stores ISO-8601 timestamps and immediately converts every difference to
  hours (`total_seconds() / 3600.0`), so a rational "hours" axis is faithful.
* Python floats are modelled as exact rationals; the decay weights
  `2.718 ** (-decay_rate * hours_ago)` live in the real numbers.
* Python dicts holding progress records appear in two forms: `WordData`
  models a fully populated record (every required key present), while
  `WordDict` models the raw dynamic dict in which any key may be absent
  (`Option` fields), as needed by the load-time migration and by
  `verify_data` / `select_word`.
* The wall clock (`get_utc_now` / `datetime.now`) is threaded through as an
  explicit `now` parameter.
-/

namespace VocabLearning

/-! ### Constants (src/vocabulary_learning/core/constants.py) -/

def INITIAL_EASINESS_FACTOR : ℚ := 2.5
def MIN_EASINESS_FACTOR : ℚ := 1.3
def EASINESS_INCREASE : ℚ := 0.1
def EASINESS_DECREASE : ℚ := 0.2
def FIRST_SUCCESS_INTERVAL : ℚ := 0.0333
def SECOND_SUCCESS_INTERVAL : ℚ := 24.0
def MAX_ACTIVE_WORDS : ℕ := 8
def MASTERY_MIN_SUCCESSES : ℕ := 5
def MASTERY_SUCCESS_RATE : ℚ := 0.85
def FAILED_WORD_PRIORITY_BONUS : ℚ := 0.3
def HALF_LIFE_DAYS : ℚ := 30.0
def DECAY_RATE : ℚ := 0.693 / (HALF_LIFE_DAYS * 24)
def MAX_REVIEW_INTERVALS_HISTORY : ℕ := 10
def WORD_ID_DIGITS : ℕ := 6

def REQUIRED_VOCABULARY_COLUMNS : List String :=
  ["japanese", "kanji", "french", "example_sentence"]

def REQUIRED_PROGRESS_FIELDS : List String :=
  ["attempts", "successes", "interval", "last_attempt_was_failure", "last_seen",
   "review_intervals", "easiness_factor"]

/-! ### Data model -/

/-- One entry of a record's `attempt_history`: `{"timestamp": ..., "success": ...}`. -/
structure Attempt where
  timestamp : ℚ
  success : Bool
deriving DecidableEq

/-- A fully populated progress record (all keys that
`update_progress` maintains are present). -/
structure WordData where
  attempts : ℕ
  successes : ℕ
  interval : ℚ
  last_attempt_was_failure : Bool
  last_seen : ℚ
  review_intervals : List ℚ
  easiness_factor : ℚ
  attempt_history : List Attempt
  first_introduced : Option ℚ
deriving DecidableEq

/-- The raw dynamic progress dict: any key may be absent. -/
structure WordDict where
  attempts : Option ℕ := none
  successes : Option ℕ := none
  interval : Option ℚ := none
  last_attempt_was_failure : Option Bool := none
  last_seen : Option ℚ := none
  review_intervals : Option (List ℚ) := none
  easiness_factor : Option ℚ := none
  attempt_history : Option (List Attempt) := none
  first_introduced : Option ℚ := none
deriving DecidableEq

/-- A row of the vocabulary DataFrame. -/
structure VocabWord where
  japanese : String
  kanji : String
  french : String
  example_sentence : String
deriving DecidableEq

/-- The vocabulary DataFrame: its column names and its rows
(in stable index order 0, 1, 2, ...). -/
structure Vocabulary where
  columns : List String
  rows : List VocabWord
deriving DecidableEq

/-! ### IntervalScheduler
(src/vocabulary_learning/core/progress_tracking.py, `calculate_next_interval`,
`update_progress`) -/

/-- Source `calculate_next_interval(current_interval, easiness_factor, hours_since_last)`
(progress_tracking.py lines 28-53).  `hours_since_last` is an optional float
defaulting to `None`; the Python guard `if hours_since_last and
hours_since_last > 0` is `None`-and-zero-falsy, modelled by the `match` plus
the conjunction. -/
def calculate_next_interval (current_interval easiness_factor : ℚ)
    (hours_since_last : Option ℚ) : ℚ :=
  if current_interval = 0 then FIRST_SUCCESS_INTERVAL
  else if current_interval = FIRST_SUCCESS_INTERVAL then SECOND_SUCCESS_INTERVAL
  else
    match hours_since_last with
    | some h => if h ≠ 0 ∧ 0 < h then h * easiness_factor
                else current_interval * easiness_factor
    | none => current_interval * easiness_factor

/-- Source `update_progress(word_id, success, progress, save_callback)`
(progress_tracking.py lines 56-130), as the transition it applies to the one
record it touches.  `existing = none` models `word_id not in progress`.
The `"last_seen" in progress[word_id]` guard (line 84) is always true here
because `WordData` models a record that has the key (the source initialises
it for new records and it is a required field of stored records); likewise
the `"attempt_history" not in` guard (line 97).  The save callback performs
I/O only and is omitted. -/
def update_progress (existing : Option WordData) (success : Bool) (now : ℚ) :
    WordData :=
  let w : WordData :=
    match existing with
    | none =>
      { attempts := 0, successes := 0, interval := 0,
        last_attempt_was_failure := false, last_seen := now,
        review_intervals := [], easiness_factor := INITIAL_EASINESS_FACTOR,
        attempt_history := [], first_introduced := some now }
    | some w => w
  let hours_since_last := now - w.last_seen
  let review_intervals := w.review_intervals ++ [hours_since_last]
  let attempts := w.attempts + 1
  let successes := if success then w.successes + 1 else w.successes
  let attempt_history :=
    w.attempt_history ++ [{ timestamp := now, success := success }]
  let interval :=
    if success then
      calculate_next_interval w.interval w.easiness_factor (some hours_since_last)
    else FIRST_SUCCESS_INTERVAL
  let easiness_factor :=
    if success then
      if w.easiness_factor < INITIAL_EASINESS_FACTOR then
        min (w.easiness_factor + EASINESS_INCREASE) INITIAL_EASINESS_FACTOR
      else w.easiness_factor
    else max (w.easiness_factor - EASINESS_DECREASE) MIN_EASINESS_FACTOR
  { attempts := attempts, successes := successes, interval := interval,
    last_attempt_was_failure := !success, last_seen := now,
    review_intervals := review_intervals, easiness_factor := easiness_factor,
    attempt_history := attempt_history, first_introduced := w.first_introduced }

/-- Applying a sequence of record-attempt operations
(success flag and evaluation time for each) to a record. -/
def apply_attempts (w : WordData) (ops : List (Bool × ℚ)) : WordData :=
  ops.foldl (fun acc p => update_progress (some acc) p.1 p.2) w

namespace ProgressService

/-- Source `ProgressService.update_progress(word_id, success)`
(src/vocabulary_learning/services/progress_service.py lines 91-171), the
service-layer variant of the record-attempt operation; it truncates
`review_intervals` to the last `MAX_REVIEW_INTERVALS_HISTORY` entries.
The `elif "interval" not in ...` schema-repair branch (lines 109-117) is
inapplicable to a fully populated record and the save call is I/O. -/
def update_progress (existing : Option WordData) (success : Bool) (now : ℚ) :
    WordData :=
  let w : WordData :=
    match existing with
    | none =>
      { attempts := 0, successes := 0, interval := 0,
        last_attempt_was_failure := false, last_seen := now,
        review_intervals := [], easiness_factor := INITIAL_EASINESS_FACTOR,
        attempt_history := [], first_introduced := none }
    | some w => w
  let hours_since_last := now - w.last_seen
  let ri := w.review_intervals ++ [hours_since_last]
  let review_intervals :=
    if MAX_REVIEW_INTERVALS_HISTORY < ri.length then
      ri.drop (ri.length - MAX_REVIEW_INTERVALS_HISTORY)
    else ri
  let attempts := w.attempts + 1
  let attempt_history :=
    w.attempt_history ++ [{ timestamp := now, success := success }]
  if success then
    { attempts := attempts, successes := w.successes + 1,
      interval :=
        if w.interval = 0 then FIRST_SUCCESS_INTERVAL
        else if w.interval = FIRST_SUCCESS_INTERVAL then SECOND_SUCCESS_INTERVAL
        else hours_since_last * w.easiness_factor,
      last_attempt_was_failure := false, last_seen := now,
      review_intervals := review_intervals,
      easiness_factor :=
        min INITIAL_EASINESS_FACTOR (w.easiness_factor + EASINESS_INCREASE),
      attempt_history := attempt_history, first_introduced := w.first_introduced }
  else
    { attempts := attempts, successes := w.successes,
      interval := FIRST_SUCCESS_INTERVAL,
      last_attempt_was_failure := true, last_seen := now,
      review_intervals := review_intervals,
      easiness_factor :=
        max MIN_EASINESS_FACTOR (w.easiness_factor - EASINESS_DECREASE),
      attempt_history := attempt_history, first_introduced := w.first_introduced }

end ProgressService

/-! ### TemporalDecayEvaluator
(progress_tracking.py, `calculate_weighted_success_rate`) -/

/-- The decay weight of one attempt: `2.718 ** (-decay_rate * hours_ago)`
with `hours_ago = (now - timestamp).total_seconds() / 3600.0`
(progress_tracking.py lines 160-166). -/
noncomputable def attempt_weight (now : ℚ) (a : Attempt) : ℝ :=
  (2.718 : ℝ) ^ (-(((DECAY_RATE : ℚ) : ℝ) * ((now : ℝ) - ((a.timestamp : ℚ) : ℝ))))

/-- The loop accumulator `total_weight` of
`calculate_weighted_success_rate` (lines 157-168). -/
noncomputable def total_weight : List Attempt → ℚ → ℝ
  | [], _ => 0
  | a :: rest, now => attempt_weight now a + total_weight rest now

/-- The loop accumulator `weighted_successes` of
`calculate_weighted_success_rate` (lines 158-170). -/
noncomputable def weighted_successes : List Attempt → ℚ → ℝ
  | [], _ => 0
  | a :: rest, now =>
    (if a.success then attempt_weight now a else 0) + weighted_successes rest now

/-- Source `calculate_weighted_success_rate(attempt_history, now)`
(progress_tracking.py lines 133-175): returns `0.0` on an empty history,
`0.0` when the accumulated weight is zero, else the weighted ratio. -/
noncomputable def calculate_weighted_success_rate
    (attempt_history : List Attempt) (now : ℚ) : ℝ :=
  if attempt_history.isEmpty then 0
  else if total_weight attempt_history now = 0 then 0
  else weighted_successes attempt_history now / total_weight attempt_history now

/-! ### MasteryClassifier (progress_tracking.py, `is_mastered`) -/

/-- Source `is_mastered(word_data)` (progress_tracking.py lines 224-250).
`word_data.get("successes", 0)` and `word_data.get("attempt_history", [])`
become `getD`; the leading `if not word_data: return False` guard (an
empty-dict check) is subsumed by the first criterion, since an empty dict
yields `successes = 0 < MASTERY_MIN_SUCCESSES`.  The negated early return
`successes < MASTERY_MIN_SUCCESSES -> False` together with the final
comparison gives the conjunction below. -/
def is_mastered (word_data : WordDict) (now : ℚ) : Prop :=
  MASTERY_MIN_SUCCESSES ≤ word_data.successes.getD 0 ∧
    ((MASTERY_SUCCESS_RATE : ℚ) : ℝ) ≤
      calculate_weighted_success_rate (word_data.attempt_history.getD []) now

/-! ### PriorityCalculator (progress_tracking.py, `calculate_priority`) -/

/-- Source `calculate_priority(word_data, active_words_count)`
(progress_tracking.py lines 178-221).  `word_data = none` is the
never-attempted case.  `word_data["last_seen"]` is a direct key access in
the source; every record handled by the selector has been verified to carry
it, so the `getD 0` default is never exercised on verified data.
`word_data.get("last_attempt_was_failure", False)` becomes `getD false`. -/
def calculate_priority (word_data : Option WordDict)
    (active_words_count : ℕ) (now : ℚ) : ℚ :=
  match word_data with
  | none => if active_words_count < MAX_ACTIVE_WORDS then 0.8 else 0.0
  | some w =>
    match w.interval with
    | none => 0.0
    | some interval =>
      let last_seen := w.last_seen.getD 0
      let hours_since_last := now - last_seen
      if interval = 0 then 0.0
      else
        let overdue := hours_since_last / interval
        let p := max 0.0 overdue
        let p := if w.last_attempt_was_failure.getD false then
            p + FAILED_WORD_PRIORITY_BONUS else p
        min 1.0 p

/-! ### ActiveSetGate (progress_tracking.py, `count_active_learning_words`) -/

open Classical in
/-- Source `count_active_learning_words(progress_data)` (progress_tracking.py
lines 253-267): the number of records that are not mastered and have
`attempts > 0` (a direct `data["attempts"]` access, `getD` here). -/
noncomputable def count_active_learning_words :
    List (String × WordDict) → ℚ → ℕ
  | [], _ => 0
  | (_, data) :: rest, now =>
    (if ¬ is_mastered data now ∧ 0 < data.attempts.getD 0 then 1 else 0) +
      count_active_learning_words rest now

/-! ### Load-time migration
(src/vocabulary_learning/core/file_operations.py, `load_progress`,
lines 171-176; the identical loop is in
services/progress_service.py, `_load_progress`, lines 65-70) -/

/-- The per-record migration applied by `load_progress` after parsing the
JSON: insert `review_intervals = []` and `last_attempt_was_failure = False`
when absent.  No other key is touched. -/
def migrate_progress_record (w : WordDict) : WordDict :=
  let w₁ :=
    match w.review_intervals with
    | none => { w with review_intervals := some [] }
    | some _ => w
  match w₁.last_attempt_was_failure with
  | none => { w₁ with last_attempt_was_failure := some false }
  | some _ => w₁

/-- The migration loop of `load_progress` over the whole parsed progress
map (file/Firebase I/O and JSON parsing are out of scope; this is the pure
transformation the loader applies to whatever map it obtained). -/
def load_progress_migrate (progress : List (String × WordDict)) :
    List (String × WordDict) :=
  progress.map (fun e => (e.1, migrate_progress_record e.2))

/-! ### WordSelector (src/vocabulary_learning/core/practice.py,
`verify_data` lines 265-283 and `select_word` lines 286-419) -/

/-- Whether the progress dict has the given key. -/
def has_field (w : WordDict) (field : String) : Bool :=
  if field = "attempts" then w.attempts.isSome
  else if field = "successes" then w.successes.isSome
  else if field = "interval" then w.interval.isSome
  else if field = "last_attempt_was_failure" then w.last_attempt_was_failure.isSome
  else if field = "last_seen" then w.last_seen.isSome
  else if field = "review_intervals" then w.review_intervals.isSome
  else if field = "easiness_factor" then w.easiness_factor.isSome
  else if field = "attempt_history" then w.attempt_history.isSome
  else if field = "first_introduced" then w.first_introduced.isSome
  else false

/-- Source `verify_data(vocabulary, progress)` (practice.py lines 265-283): raise
`ValueError` (here `Except.error`) on the first missing required vocabulary
column, then on the first missing required progress field, scanning words
and fields in order. -/
def verify_data (vocabulary : Vocabulary)
    (progress : List (String × WordDict)) : Except String Unit :=
  match REQUIRED_VOCABULARY_COLUMNS.find?
      (fun c => !(vocabulary.columns.contains c)) with
  | some column => .error ("Missing required column: " ++ column)
  | none =>
    match progress.findSome? (fun e =>
        (REQUIRED_PROGRESS_FIELDS.find? (fun f => !(has_field e.2 f))).map
          (fun f => "Missing required field " ++ f ++
            " in progress data for " ++ e.1)) with
    | some msg => .error msg
    | none => .ok ()

/-- Python's `str(i).zfill(width)` for a decimal string. -/
def zfill (width : ℕ) (s : String) : String :=
  ⟨List.replicate (width - s.length) '0' ++ s.data⟩

/-- Python `str(i + 1).zfill(WORD_ID_DIGITS)`: the word id of catalog row `i`. -/
def word_id_of_index (i : ℕ) : String :=
  zfill WORD_ID_DIGITS (toString (i + 1))

open Classical in
/-- The `priorities` dict built by `select_word` (practice.py lines
322-329): every recorded, non-mastered word paired with its priority, in
insertion order of the progress map. -/
noncomputable def priorities_list :
    List (String × WordDict) → ℕ → ℚ → List (String × ℚ)
  | [], _, _ => []
  | (word_id, word_data) :: rest, active, now =>
    if is_mastered word_data now then priorities_list rest active now
    else (word_id, calculate_priority (some word_data) active now) ::
      priorities_list rest active now

/-- The running `max_priority` of `select_word` (lines 324-329), a fold of
`max` starting from `0.0`. -/
def max_priority_of (prios : List (String × ℚ)) : ℚ :=
  prios.foldl (fun m x => max m x.2) 0

/-- Python `sorted(priorities.items(), key=lambda x: x[1], reverse=True)[0]`
(practice.py lines 356-357).  Python's sort is stable, so the head of the
descending sort is the first entry attaining the maximal priority, which is
what this fold computes; `none` exactly when the dict is empty. -/
def pick_best (prios : List (String × ℚ)) : Option (String × ℚ) :=
  prios.foldl (fun best x =>
    match best with
    | none => some x
    | some b => if b.2 < x.2 then some x else some b) none

/-- Pandas `DataFrame.iloc[idx]` on the row list: non-negative positions index from
the front, negative positions from the back, out-of-range raises
(`none` here, turned into `IndexError` text by the caller). -/
def iloc (rows : List VocabWord) (idx : ℤ) : Option VocabWord :=
  if 0 ≤ idx then rows.get? idx.toNat
  else if (-idx).toNat ≤ rows.length then rows.get? (rows.length - (-idx).toNat)
  else none

/-- Python's `int(word_id)` on a decimal word id: the digit-string value,
`none` for the `ValueError` on a non-numeric id.  (Python's `int` also
accepts a sign and surrounding whitespace, which cannot occur in word
ids.) -/
def str_to_int (s : String) : Option ℕ :=
  if !s.data.isEmpty && s.data.all (fun c => c.isDigit) then
    some (s.data.foldl (fun acc c => acc * 10 + (c.toNat - 48)) 0)
  else none

/-- The recorded-words branch of `select_word` (practice.py lines 353-419):
if the priorities dict is non-empty, take the stable-sorted best entry,
compute `word_index = int(word_id) - 1` (a `ValueError` on a non-numeric
id) and fetch `vocabulary.iloc[word_index]` (an `IndexError` when out of
bounds); if the dict is empty, return `None`.  The dead
`if word_id not in progress` re-initialisation (lines 360-362) and all
console printing are omitted. -/
def select_from_recorded (vocabulary : Vocabulary)
    (prios : List (String × ℚ)) : Except String (Option VocabWord) :=
  match pick_best prios with
  | none => .ok none
  | some (word_id, _) =>
    match str_to_int word_id with
    | none => .error ("invalid literal for int with base 10: " ++ word_id)
    | some n =>
      match iloc vocabulary.rows ((n : ℤ) - 1) with
      | some row => .ok (some row)
      | none => .error "single positional indexer is out-of-bounds"

open Classical in
/-- Source `select_word(vocabulary, progress, console, initialize_progress_fn)`
(practice.py lines 286-419).  Returns `Except.error` for the exceptions the
source can raise (`ValueError` from `verify_data` or `int(...)`,
`IndexError` from `.iloc`), `.ok none` for the Python `None` return, and
`.ok (some row)` for a selected row.  `new_indices` models the `new_words`
sub-frame (catalog rows whose id is not a key of progress, in catalog
order); its `head` is `new_words.iloc[0]`, which always exists when the
frame is non-empty, so the impossible `none` arm returns `.ok none`.
`initialize_progress_fn` and console printing are side effects outside the
returned value and are omitted. -/
noncomputable def select_word (vocabulary : Vocabulary)
    (progress : List (String × WordDict)) (now : ℚ) :
    Except String (Option VocabWord) :=
  match verify_data vocabulary progress with
  | .error e => .error e
  | .ok _ =>
    let active := count_active_learning_words progress now
    let new_indices := (List.range vocabulary.rows.length).filter
      (fun i => !((progress.map Prod.fst).contains (word_id_of_index i)))
    let prios := priorities_list progress active now
    let maxp := max_priority_of prios
    let newp := calculate_priority none active now
    if maxp < newp then
      match new_indices with
      | i :: _ =>
        match vocabulary.rows.get? i with
        | some row => .ok (some row)
        | none => .ok none
      | [] => select_from_recorded vocabulary prios
    else select_from_recorded vocabulary prios

/-! ## Helper lemmas about the decay evaluator -/

theorem attempt_weight_pos (now : ℚ) (a : Attempt) : 0 < attempt_weight now a :=
  Real.rpow_pos_of_pos (by norm_num) _

theorem total_weight_nonneg (l : List Attempt) (now : ℚ) :
    0 ≤ total_weight l now := by
  induction l with
  | nil => simp [total_weight]
  | cons a rest ih =>
    have h := attempt_weight_pos now a
    simp only [total_weight]
    linarith

theorem total_weight_pos (l : List Attempt) (now : ℚ) (h : l ≠ []) :
    0 < total_weight l now := by
  cases l with
  | nil => exact absurd rfl h
  | cons a rest =>
    have h1 := attempt_weight_pos now a
    have h2 := total_weight_nonneg rest now
    simp only [total_weight]
    linarith

/-- On a non-empty history the rate is the plain quotient: neither of the
two zero-returning guards fires. -/
theorem rate_eq_div (l : List Attempt) (now : ℚ) (h : l ≠ []) :
    calculate_weighted_success_rate l now =
      weighted_successes l now / total_weight l now := by
  have ht := total_weight_pos l now h
  unfold calculate_weighted_success_rate
  rw [if_neg (by simpa using h), if_neg (ne_of_gt ht)]

/-- Shifting the evaluation time multiplies every attempt's weight by the
same positive factor. -/
theorem attempt_weight_shift (now d : ℚ) (a : Attempt) :
    attempt_weight (now + d) a =
      attempt_weight now a * (2.718 : ℝ) ^ (-(((DECAY_RATE : ℚ) : ℝ) * (d : ℝ))) := by
  unfold attempt_weight
  rw [← Real.rpow_add (by norm_num)]
  congr 1
  push_cast
  ring

theorem total_weight_shift (l : List Attempt) (now d : ℚ) :
    total_weight l (now + d) =
      total_weight l now * (2.718 : ℝ) ^ (-(((DECAY_RATE : ℚ) : ℝ) * (d : ℝ))) := by
  induction l with
  | nil => simp [total_weight]
  | cons a rest ih =>
    simp only [total_weight, ih, attempt_weight_shift]
    ring

theorem weighted_successes_shift (l : List Attempt) (now d : ℚ) :
    weighted_successes l (now + d) =
      weighted_successes l now * (2.718 : ℝ) ^ (-(((DECAY_RATE : ℚ) : ℝ) * (d : ℝ))) := by
  induction l with
  | nil => simp [weighted_successes]
  | cons a rest ih =>
    simp only [weighted_successes, ih]
    by_cases ha : a.success
    · rw [if_pos ha, if_pos ha, attempt_weight_shift]; ring
    · rw [if_neg ha, if_neg ha]; ring

/-- The weighted success rate of a fixed non-empty history does not depend
on the evaluation time: the common decay factor cancels in the ratio. -/
theorem rate_time_shift (l : List Attempt) (now d : ℚ) (h : l ≠ []) :
    calculate_weighted_success_rate l (now + d) =
      calculate_weighted_success_rate l now := by
  have hk : (0 : ℝ) < (2.718 : ℝ) ^ (-(((DECAY_RATE : ℚ) : ℝ) * (d : ℝ))) :=
    Real.rpow_pos_of_pos (by norm_num) _
  rw [rate_eq_div l _ h, rate_eq_div l now h, total_weight_shift,
    weighted_successes_shift, mul_div_mul_right _ _ (ne_of_gt hk)]

/-! ## Lower bound on the rate of a 9-of-10 recent history -/

theorem weighted_successes_ge (l : List Attempt) (now : ℚ) (a : ℝ)
    (_ha : 0 ≤ a) (h : ∀ x ∈ l, a ≤ attempt_weight now x) :
    ((l.filter (fun x => x.success)).length : ℝ) * a ≤
      weighted_successes l now := by
  induction l with
  | nil => simp [weighted_successes]
  | cons x rest ih =>
    have hx := h x (List.mem_cons_self x rest)
    have ihr := ih (fun y hy => h y (List.mem_cons_of_mem x hy))
    by_cases hs : x.success
    · rw [List.filter_cons_of_pos (by simpa using hs)]
      simp only [weighted_successes, if_pos hs, List.length_cons]
      push_cast
      linarith
    · rw [List.filter_cons_of_neg (by simpa using hs)]
      simp only [weighted_successes, if_neg hs]
      linarith

theorem total_sub_weighted_le (l : List Attempt) (now : ℚ)
    (h : ∀ x ∈ l, attempt_weight now x ≤ 1) :
    total_weight l now - weighted_successes l now ≤
      ((l.filter (fun x => !x.success)).length : ℝ) := by
  induction l with
  | nil => simp [total_weight, weighted_successes]
  | cons x rest ih =>
    have hx := h x (List.mem_cons_self x rest)
    have ihr := ih (fun y hy => h y (List.mem_cons_of_mem x hy))
    by_cases hs : x.success
    · rw [List.filter_cons_of_neg (by simpa using hs)]
      simp only [total_weight, weighted_successes, if_pos hs]
      linarith
    · rw [List.filter_cons_of_pos (by simpa using hs)]
      simp only [total_weight, weighted_successes, if_neg hs, List.length_cons]
      push_cast
      linarith

theorem length_filter_success_add (l : List Attempt) :
    (l.filter (fun x => x.success)).length +
      (l.filter (fun x => !x.success)).length = l.length := by
  induction l with
  | nil => rfl
  | cons x rest ih =>
    by_cases hs : x.success <;> simp [List.filter_cons, hs] <;> omega

/-- Any 10-attempt history with 9 successes, timestamped entirely within
the hour before `now`, has weighted success rate at least the mastery
threshold at `now`: every weight lies in `[2.718 ^ (-lam), 1]` with
`lam = DECAY_RATE`, and `2.718 ^ (-lam) ≥ 17/27` suffices. -/
theorem rate_lower_bound (l : List Attempt) (now : ℚ)
    (hlen : l.length = 10)
    (hsucc : (l.filter (fun x => x.success)).length = 9)
    (htimes : ∀ x ∈ l, now - 1 ≤ x.timestamp ∧ x.timestamp ≤ now) :
    ((MASTERY_SUCCESS_RATE : ℚ) : ℝ) ≤ calculate_weighted_success_rate l now := by
  set lam : ℝ := ((DECAY_RATE : ℚ) : ℝ) with hlamdef
  have hlam : lam = 693 / 720000 := by
    rw [hlamdef]
    norm_num [DECAY_RATE, HALF_LIFE_DAYS]
  have hlam0 : 0 ≤ lam := by rw [hlam]; norm_num
  set a : ℝ := (2.718 : ℝ) ^ (-lam) with hadef
  have ha_pos : 0 < a := Real.rpow_pos_of_pos (by norm_num) _
  have ha_lb : (17 : ℝ) / 27 ≤ a := by
    have hc : (0 : ℝ) < 2.718 := by norm_num
    have haexp : a = Real.exp (Real.log 2.718 * (-lam)) :=
      Real.rpow_def_of_pos hc _
    have hlog_le : Real.log 2.718 ≤ 1 := by
      have h1 : (2.718 : ℝ) ≤ Real.exp 1 := by
        have h2 := Real.exp_one_gt_d9
        linarith
      have h3 : Real.log 2.718 ≤ Real.log (Real.exp 1) :=
        Real.log_le_log (by norm_num) h1
      simpa using h3
    have hmono : Real.exp (-lam) ≤ Real.exp (Real.log 2.718 * (-lam)) := by
      apply Real.exp_le_exp.mpr
      nlinarith
    have hexp_lb : 1 - lam ≤ Real.exp (-lam) := by
      have h4 := Real.add_one_le_exp (-lam)
      linarith
    have h5 : (17 : ℝ) / 27 ≤ 1 - lam := by rw [hlam]; norm_num
    rw [haexp] at *
    linarith
  have hw_lb : ∀ x ∈ l, a ≤ attempt_weight now x := by
    intro x hx
    obtain ⟨h1, _h2⟩ := htimes x hx
    unfold attempt_weight
    rw [← hlamdef, hadef,
      Real.rpow_le_rpow_left_iff (by norm_num : (1 : ℝ) < 2.718)]
    have h1' : ((now : ℝ) - 1 : ℝ) ≤ ((x.timestamp : ℚ) : ℝ) := by
      exact_mod_cast h1
    nlinarith
  have hw_ub : ∀ x ∈ l, attempt_weight now x ≤ 1 := by
    intro x hx
    obtain ⟨_h1, h2⟩ := htimes x hx
    unfold attempt_weight
    rw [← hlamdef]
    apply Real.rpow_le_one_of_one_le_of_nonpos (by norm_num)
    have h2' : ((x.timestamp : ℚ) : ℝ) ≤ ((now : ℚ) : ℝ) := by exact_mod_cast h2
    nlinarith
  have hS := weighted_successes_ge l now a (le_of_lt ha_pos) hw_lb
  rw [hsucc] at hS
  have hF := total_sub_weighted_le l now hw_ub
  have hfail : (l.filter (fun x => !x.success)).length = 1 := by
    have h6 := length_filter_success_add l
    omega
  rw [hfail] at hF
  have hne : l ≠ [] := by intro hl; rw [hl] at hlen; simp at hlen
  have hT := total_weight_pos l now hne
  rw [rate_eq_div l now hne, le_div_iff₀ hT]
  have hrate : ((MASTERY_SUCCESS_RATE : ℚ) : ℝ) = 0.85 := by
    norm_num [MASTERY_SUCCESS_RATE]
  rw [hrate]
  push_cast at hS hF
  linarith

/-! ## Claim C1 -/

/-- Claim C1 (amended): a record with `attempts = 10`, `successes = 9`
whose 10-entry attempt history is timestamped entirely within one hour
before `now₀` is mastered at `now₀`; re-evaluating with `now` shifted
400 days (9600 hours) later leaves the weighted success rate unchanged —
the common decay factor cancels in the ratio — so `is_mastered` is still
true, not false. -/
theorem C1_mastered_and_stable (w : WordDict) (now₀ : ℚ)
    (_hatt : w.attempts = some 10)
    (hsucc : w.successes = some 9)
    (hlen : (w.attempt_history.getD []).length = 10)
    (hnine : ((w.attempt_history.getD []).filter (fun x => x.success)).length = 9)
    (htimes : ∀ x ∈ w.attempt_history.getD [],
      now₀ - 1 ≤ x.timestamp ∧ x.timestamp ≤ now₀) :
    is_mastered w now₀ ∧ is_mastered w (now₀ + 9600) ∧
      calculate_weighted_success_rate (w.attempt_history.getD []) (now₀ + 9600) =
        calculate_weighted_success_rate (w.attempt_history.getD []) now₀ := by
  have hne : w.attempt_history.getD [] ≠ [] := by
    intro h; rw [h] at hlen; simp at hlen
  have hb := rate_lower_bound _ now₀ hlen hnine htimes
  have hshift := rate_time_shift (w.attempt_history.getD []) now₀ 9600 hne
  have hm1 : is_mastered w now₀ := by
    refine ⟨?_, hb⟩
    rw [hsucc]
    norm_num [MASTERY_MIN_SUCCESSES]
  refine ⟨hm1, ⟨hm1.1, ?_⟩, hshift⟩
  show ((MASTERY_SUCCESS_RATE : ℚ) : ℝ) ≤
    calculate_weighted_success_rate (w.attempt_history.getD []) (now₀ + 9600)
  rw [hshift]
  exact hb

/-- The C1 record: 10 attempts all at hour 0, 9 of them successes. -/
def C1_history : List Attempt :=
  [{ timestamp := 0, success := true }, { timestamp := 0, success := true },
   { timestamp := 0, success := true }, { timestamp := 0, success := true },
   { timestamp := 0, success := true }, { timestamp := 0, success := true },
   { timestamp := 0, success := true }, { timestamp := 0, success := true },
   { timestamp := 0, success := true }, { timestamp := 0, success := false }]

def C1_record : WordDict :=
  { attempts := some 10, successes := some 9, interval := some 24,
    last_attempt_was_failure := some true, last_seen := some 0,
    review_intervals := some [], easiness_factor := some 2.5,
    attempt_history := some C1_history }

theorem C1_witness :
    is_mastered C1_record 0 ∧ is_mastered C1_record (0 + 9600) ∧
      calculate_weighted_success_rate (C1_record.attempt_history.getD []) (0 + 9600) =
        calculate_weighted_success_rate (C1_record.attempt_history.getD []) 0 := by
  refine C1_mastered_and_stable C1_record 0 rfl rfl rfl rfl ?_
  intro x hx
  simp only [C1_record, C1_history, Option.getD_some] at hx
  fin_cases hx <;> norm_num

/-- Counterexample to claim C1 as stated: the same record, re-evaluated
400 days (9600 hours) later, is still mastered — the weighted success rate
is a ratio in which the uniform decay factor cancels, so it does not
approach 0 and `is_mastered` does not become false. -/
theorem C1_counterexample : is_mastered C1_record 9600 := by
  have htimes : ∀ x ∈ C1_history, (0 : ℚ) - 1 ≤ x.timestamp ∧ x.timestamp ≤ 0 := by
    intro x hx
    simp only [C1_history] at hx
    fin_cases hx <;> norm_num
  have hb := rate_lower_bound C1_history 0 rfl rfl htimes
  have hshift := rate_time_shift C1_history 0 9600 (by simp [C1_history])
  constructor
  · norm_num [C1_record, MASTERY_MIN_SUCCESSES]
  · show ((MASTERY_SUCCESS_RATE : ℚ) : ℝ) ≤
      calculate_weighted_success_rate (C1_record.attempt_history.getD []) 9600
    have h0 : (9600 : ℚ) = 0 + 9600 := by norm_num
    have hrec : C1_record.attempt_history.getD [] = C1_history := rfl
    rw [hrec, h0, hshift]
    exact hb

/-! ## Claim C10 -/

/-- Claim C10: a record whose `attempt_history` is empty (or absent) is
never classified as mastered, no matter how large its stored `successes`
and `attempts` counters are, because the weighted success rate of an empty
history is `0.0`, below the mastery threshold. -/
theorem C10_empty_history_never_mastered (w : WordDict) (now : ℚ)
    (h : w.attempt_history.getD [] = []) : ¬ is_mastered w now := by
  intro hm
  have h2 := hm.2
  rw [h] at h2
  unfold calculate_weighted_success_rate at h2
  rw [if_pos (by simp)] at h2
  norm_num [MASTERY_SUCCESS_RATE] at h2

/-- A record migrated from an older schema: huge counters, no
`attempt_history` key at all. -/
def C10_record : WordDict :=
  { attempts := some 2000000, successes := some 1000000,
    interval := some 24, last_attempt_was_failure := some false,
    last_seen := some 0, review_intervals := some [],
    easiness_factor := some 2.5 }

theorem C10_witness : ¬ is_mastered C10_record 5 :=
  C10_empty_history_never_mastered C10_record 5 rfl

/-! ## Claim C2 -/

/-- Claim C2: over a fixed, non-empty attempt history, with both
evaluation times at or after the last attempt, mastery never flips from
false to true as time passes.  (In fact the weighted rate is invariant
under shifting `now`, so mastery never changes at all without a new
attempt.) -/
theorem C2_mastery_never_false_to_true (w : WordDict) (now₁ now₂ : ℚ)
    (hne : w.attempt_history.getD [] ≠ [])
    (_hpast : ∀ a ∈ w.attempt_history.getD [], a.timestamp ≤ now₁)
    (_hlt : now₁ < now₂)
    (hnm : ¬ is_mastered w now₁) : ¬ is_mastered w now₂ := by
  intro hm
  apply hnm
  have hshift := rate_time_shift (w.attempt_history.getD []) now₁ (now₂ - now₁) hne
  have hrw : now₁ + (now₂ - now₁) = now₂ := by ring
  rw [hrw] at hshift
  exact ⟨hm.1, hshift ▸ hm.2⟩

def C2_record : WordDict :=
  { attempts := some 1, successes := some 1, interval := some 0.0333,
    last_attempt_was_failure := some false, last_seen := some 0,
    review_intervals := some [0], easiness_factor := some 2.5,
    attempt_history := some [{ timestamp := 0, success := true }] }

theorem C2_witness : ¬ is_mastered C2_record 2 := by
  refine C2_mastery_never_false_to_true C2_record 1 2 (by simp [C2_record])
    ?_ (by norm_num) ?_
  · intro a ha
    simp only [C2_record, Option.getD_some, List.mem_singleton] at ha
    simp [ha]
  · intro hm
    have h1 := hm.1
    simp [C2_record, MASTERY_MIN_SUCCESSES] at h1

/-! ## Claim C3 -/

/-- Modelled from the amended claim text: the interval transition function
the record-attempt operation is claimed to implement.  On success:
`interval == 0` goes to `FIRST_SUCCESS_INTERVAL`;
`interval == FIRST_SUCCESS_INTERVAL` goes to `SECOND_SUCCESS_INTERVAL`;
any other interval goes to `hoursSinceLastSeen * easinessFactor` when the
elapsed time is positive, and falls back to
`priorInterval * easinessFactor` otherwise.  Any failure resets to
`FIRST_SUCCESS_INTERVAL`. -/
def claimed_interval_transition (w : WordData) (success : Bool) (now : ℚ) : ℚ :=
  if success then
    if w.interval = 0 then FIRST_SUCCESS_INTERVAL
    else if w.interval = FIRST_SUCCESS_INTERVAL then SECOND_SUCCESS_INTERVAL
    else if 0 < now - w.last_seen then (now - w.last_seen) * w.easiness_factor
    else w.interval * w.easiness_factor
  else FIRST_SUCCESS_INTERVAL

/-- Unfolding `calculate_next_interval` at a provided (non-`None`)
`hours_since_last`. -/
theorem calculate_next_interval_some (ci ef h : ℚ) :
    calculate_next_interval ci ef (some h) =
      if ci = 0 then FIRST_SUCCESS_INTERVAL
      else if ci = FIRST_SUCCESS_INTERVAL then SECOND_SUCCESS_INTERVAL
      else if h ≠ 0 ∧ 0 < h then h * ef else ci * ef := rfl

/-- Claim C3 (amended): the record-attempt operation implements the interval
transition with landmark states `0 -> FIRST_SUCCESS_INTERVAL ->
SECOND_SUCCESS_INTERVAL`, then `hoursSinceLastSeen * easinessFactor` on
success — but only when the actual elapsed time is positive; when it is
zero (or negative) the code falls back to `priorInterval * easinessFactor`.
Every failure resets the interval to `FIRST_SUCCESS_INTERVAL`. -/
theorem C3_interval_transition (w : WordData) (success : Bool) (now : ℚ) :
    (update_progress (some w) success now).interval =
      claimed_interval_transition w success now := by
  cases success with
  | false => rfl
  | true =>
    show calculate_next_interval w.interval w.easiness_factor
        (some (now - w.last_seen)) = _
    rw [calculate_next_interval_some]
    unfold claimed_interval_transition
    rw [if_pos rfl]
    by_cases h0 : w.interval = 0
    · rw [if_pos h0, if_pos h0]
    · rw [if_neg h0, if_neg h0]
      by_cases h1 : w.interval = FIRST_SUCCESS_INTERVAL
      · rw [if_pos h1, if_pos h1]
      · rw [if_neg h1, if_neg h1]
        by_cases h2 : 0 < now - w.last_seen
        · rw [if_pos ⟨ne_of_gt h2, h2⟩, if_pos h2]
        · rw [if_neg (fun hc => h2 hc.2), if_neg h2]

/-- An established record about to be reviewed at the very instant of its
previous review (`hoursSinceLastSeen = 0`). -/
def C3_record : WordData :=
  { attempts := 3, successes := 3, interval := 100,
    last_attempt_was_failure := false, last_seen := 5,
    review_intervals := [], easiness_factor := 2.5,
    attempt_history := [], first_introduced := none }

/-- Counterexample to claim C3 as stated: with prior interval 100 and zero
elapsed time since `last_seen`, a success sets the interval to
`100 * 2.5 = 250` (the prior-interval fallback), not to
`hoursSinceLastSeen * easinessFactor = 0 * 2.5 = 0` as the claim's
transition function dictates. -/
theorem C3_counterexample :
    (update_progress (some C3_record) true 5).interval = 250 ∧
      (update_progress (some C3_record) true 5).interval ≠
        (5 - C3_record.last_seen) * C3_record.easiness_factor := by
  have hupd : (update_progress (some C3_record) true 5).interval =
      calculate_next_interval 100 2.5 (some 0) := by
    show calculate_next_interval C3_record.interval C3_record.easiness_factor
        (some (5 - C3_record.last_seen)) = _
    norm_num [C3_record]
  have hci : calculate_next_interval 100 2.5 (some 0) = 250 := by
    rw [calculate_next_interval_some]
    norm_num [FIRST_SUCCESS_INTERVAL]
  rw [hupd, hci]
  norm_num [C3_record]

/-! ## Claim C4 -/

theorem max_priority_foldl_le (l : List (String × ℚ)) (acc : ℚ) :
    acc ≤ l.foldl (fun m x => max m x.2) acc := by
  induction l generalizing acc with
  | nil => exact le_refl acc
  | cons x rest ih => exact le_trans (le_max_left acc x.2) (ih _)

theorem max_priority_nonneg (l : List (String × ℚ)) :
    0 ≤ max_priority_of l :=
  max_priority_foldl_le l 0

theorem calculate_priority_none (active : ℕ) (now : ℚ) :
    calculate_priority none active now =
      if active < MAX_ACTIVE_WORDS then 0.8 else 0.0 := rfl

theorem calculate_priority_no_interval (w : WordDict) (active : ℕ) (now : ℚ)
    (hw : w.interval = none) : calculate_priority (some w) active now = 0.0 := by
  unfold calculate_priority
  dsimp only
  rw [hw]

theorem calculate_priority_some (w : WordDict) (active : ℕ) (now : ℚ) (i : ℚ)
    (hw : w.interval = some i) :
    calculate_priority (some w) active now =
      if i = 0 then 0.0
      else min 1.0 (if w.last_attempt_was_failure.getD false then
        max 0.0 ((now - w.last_seen.getD 0) / i) + FAILED_WORD_PRIORITY_BONUS
        else max 0.0 ((now - w.last_seen.getD 0) / i)) := by
  unfold calculate_priority
  dsimp only
  rw [hw]

/-- Claim C4: `calculate_priority` returns `0.8` for a null record when the
active-word count is below `MAX_ACTIVE_WORDS` and `0.0` at or above it — so
at the cap `select_word` reduces to its recorded-words branch and never
selects a new item; for an existing record with positive interval it
returns `min(1.0, max(0.0, hoursSinceLastSeen / interval) + (0.3 if
lastAttemptWasFailure else 0.0))`; and every returned priority lies in
`[0.0, 1.0]`. -/
theorem C4_calculate_priority_spec (word_data : Option WordDict)
    (active : ℕ) (now : ℚ) :
    (word_data = none → active < MAX_ACTIVE_WORDS →
      calculate_priority word_data active now = 0.8) ∧
    (word_data = none → MAX_ACTIVE_WORDS ≤ active →
      calculate_priority word_data active now = 0) ∧
    (∀ w i ls, word_data = some w → w.interval = some i → 0 < i →
      w.last_seen = some ls →
      calculate_priority word_data active now =
        min 1 (max 0 ((now - ls) / i) +
          (if w.last_attempt_was_failure.getD false then
            FAILED_WORD_PRIORITY_BONUS else 0))) ∧
    (0 ≤ calculate_priority word_data active now ∧
      calculate_priority word_data active now ≤ 1) ∧
    (∀ v p, MAX_ACTIVE_WORDS ≤ count_active_learning_words p now →
      verify_data v p = .ok () →
      select_word v p now =
        select_from_recorded v
          (priorities_list p (count_active_learning_words p now) now)) := by
  refine ⟨?_, ?_, ?_, ?_, ?_⟩
  · rintro rfl hlt
    rw [calculate_priority_none, if_pos hlt]
  · rintro rfl hge
    rw [calculate_priority_none, if_neg (Nat.not_lt.mpr hge)]
    norm_num
  · rintro w i ls rfl hi hpos hls
    rw [calculate_priority_some w active now i hi, if_neg (ne_of_gt hpos), hls]
    by_cases hf : w.last_attempt_was_failure.getD false
    · rw [if_pos hf, if_pos hf]
      norm_num
    · rw [if_neg hf, if_neg hf]
      norm_num
  · rcases word_data with _ | w
    · rw [calculate_priority_none]
      by_cases hlt : active < MAX_ACTIVE_WORDS
      · rw [if_pos hlt]; norm_num
      · rw [if_neg hlt]; norm_num
    · cases hw : w.interval with
      | none =>
        rw [calculate_priority_no_interval w active now hw]
        norm_num
      | some i =>
        rw [calculate_priority_some w active now i hw]
        by_cases hz : i = 0
        · rw [if_pos hz]; norm_num
        · rw [if_neg hz]
          have hmax : (0 : ℚ) ≤
              max 0.0 ((now - w.last_seen.getD 0) / i) := by
            rw [le_max_iff]
            left
            norm_num
          by_cases hf : w.last_attempt_was_failure.getD false
          · rw [if_pos hf]
            have hb : (0 : ℚ) ≤ FAILED_WORD_PRIORITY_BONUS := by
              norm_num [FAILED_WORD_PRIORITY_BONUS]
            constructor
            · apply le_min (by norm_num)
              linarith
            · exact le_trans (min_le_left _ _) (by norm_num)
          · rw [if_neg hf]
            exact ⟨le_min (by norm_num) hmax,
              le_trans (min_le_left _ _) (by norm_num)⟩
  · intro v p hcap hver
    have hnew : calculate_priority none (count_active_learning_words p now) now
        = 0 := by
      rw [calculate_priority_none, if_neg (Nat.not_lt.mpr hcap)]
      norm_num
    unfold select_word
    rw [hver]
    dsimp only
    rw [hnew, if_neg (not_lt.mpr (max_priority_nonneg _))]

def C4_record : WordDict :=
  { attempts := some 2, successes := some 1, interval := some 1,
    last_attempt_was_failure := some false, last_seen := some 0,
    review_intervals := some [], easiness_factor := some 2.5,
    attempt_history := some [] }

theorem C4_witness :
    calculate_priority (some C4_record) 3 2 =
      min 1 (max 0 ((2 - 0) / 1) +
        (if C4_record.last_attempt_was_failure.getD false then
          FAILED_WORD_PRIORITY_BONUS else 0)) :=
  (C4_calculate_priority_spec (some C4_record) 3 2).2.2.1 C4_record 1 0
    rfl rfl (by norm_num) rfl

/-! ## Claim C5 -/

/-- The easiness-factor component of one core record-attempt operation. -/
theorem update_progress_easiness (w : WordData) (s : Bool) (t : ℚ) :
    (update_progress (some w) s t).easiness_factor =
      if s then
        (if w.easiness_factor < INITIAL_EASINESS_FACTOR then
          min (w.easiness_factor + EASINESS_INCREASE) INITIAL_EASINESS_FACTOR
        else w.easiness_factor)
      else max (w.easiness_factor - EASINESS_DECREASE) MIN_EASINESS_FACTOR := rfl

/-- One record-attempt operation keeps the easiness factor inside
`[MIN_EASINESS_FACTOR, INITIAL_EASINESS_FACTOR]`. -/
theorem easiness_step_bounds (w : WordData) (s : Bool) (t : ℚ)
    (h1 : MIN_EASINESS_FACTOR ≤ w.easiness_factor)
    (h2 : w.easiness_factor ≤ INITIAL_EASINESS_FACTOR) :
    MIN_EASINESS_FACTOR ≤ (update_progress (some w) s t).easiness_factor ∧
      (update_progress (some w) s t).easiness_factor ≤
        INITIAL_EASINESS_FACTOR := by
  rw [update_progress_easiness]
  cases s with
  | true =>
    rw [if_pos rfl]
    by_cases hlt : w.easiness_factor < INITIAL_EASINESS_FACTOR
    · rw [if_pos hlt]
      refine ⟨le_min ?_ ?_, min_le_right _ _⟩
      · have h3 : (0 : ℚ) ≤ EASINESS_INCREASE := by norm_num [EASINESS_INCREASE]
        linarith
      · norm_num [MIN_EASINESS_FACTOR, INITIAL_EASINESS_FACTOR]
    · rw [if_neg hlt]
      exact ⟨h1, h2⟩
  | false =>
    rw [if_neg Bool.false_ne_true]
    refine ⟨le_max_right _ _, max_le ?_ ?_⟩
    · have h3 : (0 : ℚ) ≤ EASINESS_DECREASE := by norm_num [EASINESS_DECREASE]
      linarith
    · norm_num [MIN_EASINESS_FACTOR, INITIAL_EASINESS_FACTOR]

/-- Claim C5: starting from an easiness factor in
`[MIN_EASINESS_FACTOR, INITIAL_EASINESS_FACTOR] = [1.3, 2.5]`, every
sequence of record-attempt operations (successes and failures in any
order, at any times) leaves the easiness factor in `[1.3, 2.5]`. -/
theorem C5_easiness_bounds (ops : List (Bool × ℚ)) (w : WordData)
    (h1 : MIN_EASINESS_FACTOR ≤ w.easiness_factor)
    (h2 : w.easiness_factor ≤ INITIAL_EASINESS_FACTOR) :
    MIN_EASINESS_FACTOR ≤ (apply_attempts w ops).easiness_factor ∧
      (apply_attempts w ops).easiness_factor ≤ INITIAL_EASINESS_FACTOR := by
  induction ops generalizing w with
  | nil => exact ⟨h1, h2⟩
  | cons op rest ih =>
    have hstep := easiness_step_bounds w op.1 op.2 h1 h2
    exact ih (update_progress (some w) op.1 op.2) hstep.1 hstep.2

def C5_record : WordData :=
  { attempts := 0, successes := 0, interval := 0,
    last_attempt_was_failure := false, last_seen := 0,
    review_intervals := [], easiness_factor := 2.5,
    attempt_history := [], first_introduced := none }

theorem C5_witness :
    MIN_EASINESS_FACTOR ≤
      (apply_attempts C5_record
        [(false, 1), (false, 2), (true, 3)]).easiness_factor ∧
    (apply_attempts C5_record
        [(false, 1), (false, 2), (true, 3)]).easiness_factor ≤
      INITIAL_EASINESS_FACTOR :=
  C5_easiness_bounds [(false, 1), (false, 2), (true, 3)] C5_record
    (by norm_num [C5_record, MIN_EASINESS_FACTOR])
    (by norm_num [C5_record, INITIAL_EASINESS_FACTOR])

/-! ## Claim C6 -/

theorem cap_review_intervals_le (l : List ℚ) :
    (if MAX_REVIEW_INTERVALS_HISTORY < l.length then
      l.drop (l.length - MAX_REVIEW_INTERVALS_HISTORY) else l).length ≤
      MAX_REVIEW_INTERVALS_HISTORY := by
  split_ifs with h
  · rw [List.length_drop]
    omega
  · omega

/-- Claim C6 (amended): the service-layer record-attempt operation
(`ProgressService.update_progress`) appends `hoursSinceLastSeen` and then
truncates `review_intervals` to its last `MAX_REVIEW_INTERVALS_HISTORY = 10`
entries (evicting the oldest first), so its result never has more than 10
entries; the core `update_progress` of `progress_tracking.py`, by contrast,
appends without truncating (see the counterexample). -/
theorem C6_service_caps_history (existing : Option WordData) (s : Bool)
    (now : ℚ) :
    (ProgressService.update_progress existing s now).review_intervals.length ≤
      MAX_REVIEW_INTERVALS_HISTORY := by
  cases existing with
  | none =>
    cases s with
    | true => exact cap_review_intervals_le ([] ++ [now - now])
    | false => exact cap_review_intervals_le ([] ++ [now - now])
  | some w =>
    cases s with
    | true => exact cap_review_intervals_le (w.review_intervals ++ [now - w.last_seen])
    | false => exact cap_review_intervals_le (w.review_intervals ++ [now - w.last_seen])

/-- A record whose diagnostic history is already at the cap. -/
def C6_record : WordData :=
  { attempts := 10, successes := 5, interval := 24,
    last_attempt_was_failure := false, last_seen := 0,
    review_intervals := [1, 1, 1, 1, 1, 1, 1, 1, 1, 1], easiness_factor := 2,
    attempt_history := [], first_introduced := none }

/-- Counterexample to claim C6 as stated: the core record-attempt operation
(`update_progress` in progress_tracking.py) appends to `review_intervals`
without ever truncating, so a record at the cap (10 entries) leaves it with
11 entries. -/
theorem C6_counterexample :
    C6_record.review_intervals.length ≤ MAX_REVIEW_INTERVALS_HISTORY ∧
      (update_progress (some C6_record) true 1).review_intervals.length = 11 ∧
      ¬ (update_progress (some C6_record) true 1).review_intervals.length ≤
        MAX_REVIEW_INTERVALS_HISTORY := by
  have hlen : (update_progress (some C6_record) true 1).review_intervals.length
      = 11 := rfl
  refine ⟨?_, hlen, ?_⟩
  · show (10 : ℕ) ≤ MAX_REVIEW_INTERVALS_HISTORY
    norm_num [MAX_REVIEW_INTERVALS_HISTORY]
  · rw [hlen]
    norm_num [MAX_REVIEW_INTERVALS_HISTORY]

/-! ## Claim C7 -/

/-- Claim C7 (amended): loading a stored progress map applies, to every
record, a migration that defaults a missing `review_intervals` to `[]` and
a missing `last_attempt_was_failure` to `false`, and succeeds on such older
records; `attempt_history` is NOT defaulted at load time (it is left
absent, and only defaulted to `[]` at its use sites via `.get`), and no
other field is touched. -/
theorem C7_load_migration (p : List (String × WordDict))
    (e : String × WordDict) (he : e ∈ p) :
    (e.1, migrate_progress_record e.2) ∈ load_progress_migrate p ∧
    (migrate_progress_record e.2).review_intervals =
      some (e.2.review_intervals.getD []) ∧
    (migrate_progress_record e.2).last_attempt_was_failure =
      some (e.2.last_attempt_was_failure.getD false) ∧
    (migrate_progress_record e.2).attempt_history = e.2.attempt_history ∧
    (migrate_progress_record e.2).attempts = e.2.attempts ∧
    (migrate_progress_record e.2).successes = e.2.successes ∧
    (migrate_progress_record e.2).interval = e.2.interval ∧
    (migrate_progress_record e.2).last_seen = e.2.last_seen ∧
    (migrate_progress_record e.2).easiness_factor = e.2.easiness_factor ∧
    (migrate_progress_record e.2).first_introduced = e.2.first_introduced := by
  refine ⟨List.mem_map_of_mem _ he, ?_⟩
  unfold migrate_progress_record
  rcases hri : e.2.review_intervals with _ | ri <;>
    rcases hlaf : e.2.last_attempt_was_failure with _ | b <;>
      simp [hri, hlaf]

/-- An older-schema record: every key absent. -/
def C7_old_record : WordDict := {}

theorem C7_witness :
    ("w1", migrate_progress_record C7_old_record) ∈
      load_progress_migrate [("w1", C7_old_record)] ∧
    (migrate_progress_record C7_old_record).review_intervals =
      some (C7_old_record.review_intervals.getD []) ∧
    (migrate_progress_record C7_old_record).last_attempt_was_failure =
      some (C7_old_record.last_attempt_was_failure.getD false) ∧
    (migrate_progress_record C7_old_record).attempt_history =
      C7_old_record.attempt_history ∧
    (migrate_progress_record C7_old_record).attempts = C7_old_record.attempts ∧
    (migrate_progress_record C7_old_record).successes =
      C7_old_record.successes ∧
    (migrate_progress_record C7_old_record).interval = C7_old_record.interval ∧
    (migrate_progress_record C7_old_record).last_seen =
      C7_old_record.last_seen ∧
    (migrate_progress_record C7_old_record).easiness_factor =
      C7_old_record.easiness_factor ∧
    (migrate_progress_record C7_old_record).first_introduced =
      C7_old_record.first_introduced :=
  C7_load_migration [("w1", C7_old_record)] ("w1", C7_old_record)
    (List.mem_singleton.mpr rfl)

/-- Counterexample to claim C7 as stated: loading a record that lacks all
three optional keys defaults `review_intervals` and
`last_attempt_was_failure` but leaves `attempt_history` absent — it is not
defaulted to `[]` on load. -/
theorem C7_counterexample :
    (migrate_progress_record C7_old_record).review_intervals = some [] ∧
    (migrate_progress_record C7_old_record).last_attempt_was_failure =
      some false ∧
    (migrate_progress_record C7_old_record).attempt_history = none ∧
    (migrate_progress_record C7_old_record).attempt_history ≠ some [] := by
  refine ⟨rfl, rfl, rfl, ?_⟩
  intro h
  exact Option.noConfusion h

/-! ## Helper lemmas about the selector -/

theorem findSome?_isSome_of_mem {α β : Type} (f : α → Option β) (l : List α)
    (x : α) (hx : x ∈ l) (h : (f x).isSome) : (l.findSome? f).isSome := by
  induction l with
  | nil => simp at hx
  | cons a rest ih =>
    rw [List.findSome?_cons]
    cases hfa : f a with
    | some b => rfl
    | none =>
      rcases List.mem_cons.mp hx with hax | hxr
      · rw [hax, hfa] at h
        simp at h
      · exact ih hxr

theorem findSome?_eq_none_of_all {α β : Type} (f : α → Option β) (l : List α)
    (h : ∀ x ∈ l, f x = none) : l.findSome? f = none := by
  induction l with
  | nil => rfl
  | cons a rest ih =>
    rw [List.findSome?_cons, h a (List.mem_cons_self a rest)]
    exact ih (fun x hx => h x (List.mem_cons_of_mem a hx))

theorem verify_data_ok (v : Vocabulary) (p : List (String × WordDict))
    (hcols : ∀ c ∈ REQUIRED_VOCABULARY_COLUMNS, v.columns.contains c)
    (hfields : ∀ e ∈ p, ∀ f ∈ REQUIRED_PROGRESS_FIELDS, has_field e.2 f) :
    verify_data v p = .ok () := by
  have h1 : REQUIRED_VOCABULARY_COLUMNS.find?
      (fun c => !(v.columns.contains c)) = none := by
    rw [List.find?_eq_none]
    intro c hc
    rw [hcols c hc]
    decide
  have h2 : p.findSome? (fun e =>
      (REQUIRED_PROGRESS_FIELDS.find? (fun f => !(has_field e.2 f))).map
        (fun f => "Missing required field " ++ f ++
          " in progress data for " ++ e.1)) = none := by
    apply findSome?_eq_none_of_all
    intro e he
    rw [show REQUIRED_PROGRESS_FIELDS.find? (fun f => !(has_field e.2 f))
        = none from by
      rw [List.find?_eq_none]
      intro f hf
      rw [hfields e he f hf]
      decide]
    rfl
  unfold verify_data
  rw [h1, h2]

theorem verify_data_error_of_missing (v : Vocabulary)
    (p : List (String × WordDict)) (e : String × WordDict) (he : e ∈ p)
    (f : String) (hf : f ∈ REQUIRED_PROGRESS_FIELDS)
    (hmiss : has_field e.2 f = false) :
    ∃ msg, verify_data v p = .error msg := by
  unfold verify_data
  cases hc : REQUIRED_VOCABULARY_COLUMNS.find?
      (fun c => !(v.columns.contains c)) with
  | some col => exact ⟨_, rfl⟩
  | none =>
    have hfind : (REQUIRED_PROGRESS_FIELDS.find?
        (fun f2 => !(has_field e.2 f2))).isSome := by
      cases hfo : REQUIRED_PROGRESS_FIELDS.find? (fun f2 => !(has_field e.2 f2)) with
      | some g => rfl
      | none =>
        rw [List.find?_eq_none] at hfo
        exact absurd (by simp [hmiss]) (hfo f hf)
    have hsome : (p.findSome? (fun e2 =>
        (REQUIRED_PROGRESS_FIELDS.find? (fun f2 => !(has_field e2.2 f2))).map
          (fun f2 => "Missing required field " ++ f2 ++
            " in progress data for " ++ e2.1))).isSome := by
      apply findSome?_isSome_of_mem _ _ e he
      obtain ⟨g, hg⟩ := Option.isSome_iff_exists.mp hfind
      rw [hg]
      rfl
    obtain ⟨msg, hmsg⟩ := Option.isSome_iff_exists.mp hsome
    rw [hmsg]
    exact ⟨msg, rfl⟩

theorem priorities_list_nil_of_mastered (p : List (String × WordDict))
    (active : ℕ) (now : ℚ) (h : ∀ e ∈ p, is_mastered e.2 now) :
    priorities_list p active now = [] := by
  induction p with
  | nil => rfl
  | cons a rest ih =>
    rcases a with ⟨id, w⟩
    simp only [priorities_list]
    rw [if_pos (h (id, w) (List.mem_cons_self _ _))]
    exact ih (fun e he => h e (List.mem_cons_of_mem _ he))

theorem priorities_list_ne_nil (p : List (String × WordDict)) (active : ℕ)
    (now : ℚ) (e : String × WordDict) (he : e ∈ p)
    (hnm : ¬ is_mastered e.2 now) :
    priorities_list p active now ≠ [] := by
  induction p with
  | nil => simp at he
  | cons a rest ih =>
    rcases a with ⟨id, w⟩
    simp only [priorities_list]
    by_cases hm : is_mastered w now
    · rw [if_pos hm]
      rcases List.mem_cons.mp he with hax | hxr
      · rw [hax] at hnm
        exact absurd hm hnm
      · exact ih hxr
    · rw [if_neg hm]
      exact List.cons_ne_nil _ _

theorem pick_best_foldl_isSome (l : List (String × ℚ)) (b : String × ℚ) :
    (l.foldl (fun best x =>
      match best with
      | none => some x
      | some bb => if bb.2 < x.2 then some x else some bb) (some b)).isSome := by
  induction l generalizing b with
  | nil => rfl
  | cons x rest ih =>
    show (List.foldl _ (if b.2 < x.2 then some x else some b) rest).isSome
    by_cases h : b.2 < x.2
    · rw [if_pos h]
      exact ih x
    · rw [if_neg h]
      exact ih b

theorem pick_best_isSome (l : List (String × ℚ)) (h : l ≠ []) :
    (pick_best l).isSome := by
  cases l with
  | nil => exact absurd rfl h
  | cons x rest => exact pick_best_foldl_isSome rest x

theorem iloc_nil (idx : ℤ) : iloc [] idx = none := by
  unfold iloc
  split_ifs <;> rfl

theorem select_from_recorded_error_of_nil_rows (v : Vocabulary)
    (hrows : v.rows = []) (prios : List (String × ℚ)) (h : prios ≠ []) :
    ∃ msg, select_from_recorded v prios = .error msg := by
  unfold select_from_recorded
  obtain ⟨q, hq⟩ := Option.isSome_iff_exists.mp (pick_best_isSome prios h)
  rcases q with ⟨id, pr⟩
  rw [hq]
  show ∃ msg, (match str_to_int id with
    | none => Except.error ("invalid literal for int with base 10: " ++ id)
    | some n =>
      match iloc v.rows ((n : ℤ) - 1) with
      | some row => Except.ok (some row)
      | none => Except.error "single positional indexer is out-of-bounds")
    = Except.error msg
  cases hto : str_to_int id with
  | none => exact ⟨_, rfl⟩
  | some n =>
    show ∃ msg, (match iloc v.rows ((n : ℤ) - 1) with
      | some row => Except.ok (some row)
      | none => Except.error "single positional indexer is out-of-bounds")
      = Except.error msg
    rw [hrows, iloc_nil]
    exact ⟨_, rfl⟩

/-! ## Claim C8 -/

/-- Claim C8 (amended): selection from an empty catalog returns the
"no item available" signal (`.ok none`) when the progress map has no
non-mastered record (in particular when it is empty); when the progress map
does contain a non-mastered record, the recorded-words branch still runs
and its catalog lookup fails with an `IndexError` instead of returning
`None`.  A progress record missing one of the seven required fields makes
`select_word` raise a data-integrity `ValueError` — a signal distinct from
the `.ok` returns — before any state is touched (`verify_data` is the first
step of `select_word`, ahead of any `initialize_progress_fn` call). -/
theorem C8_selection_signals (v : Vocabulary) (p : List (String × WordDict))
    (now : ℚ) :
    ((∀ c ∈ REQUIRED_VOCABULARY_COLUMNS, v.columns.contains c) →
      (∀ e ∈ p, ∀ f ∈ REQUIRED_PROGRESS_FIELDS, has_field e.2 f) →
      v.rows = [] → (∀ e ∈ p, is_mastered e.2 now) →
      select_word v p now = .ok none) ∧
    ((∀ c ∈ REQUIRED_VOCABULARY_COLUMNS, v.columns.contains c) →
      (∀ e ∈ p, ∀ f ∈ REQUIRED_PROGRESS_FIELDS, has_field e.2 f) →
      v.rows = [] → (∃ e ∈ p, ¬ is_mastered e.2 now) →
      ∃ msg, select_word v p now = .error msg) ∧
    ((∃ e ∈ p, ∃ f ∈ REQUIRED_PROGRESS_FIELDS, has_field e.2 f = false) →
      (∃ msg, select_word v p now = .error msg) ∧
        ∀ r, select_word v p now ≠ .ok r) := by
  refine ⟨?_, ?_, ?_⟩
  · intro hcols hfields hrows hmast
    unfold select_word
    rw [verify_data_ok v p hcols hfields]
    dsimp only
    rw [priorities_list_nil_of_mastered p _ now hmast, hrows]
    simp only [List.length_nil, List.range_zero, List.filter_nil]
    split_ifs <;> rfl
  · rintro hcols hfields hrows ⟨e, he, hnm⟩
    have hne := priorities_list_ne_nil p (count_active_learning_words p now)
      now e he hnm
    obtain ⟨msg, hmsg⟩ :=
      select_from_recorded_error_of_nil_rows v hrows _ hne
    refine ⟨msg, ?_⟩
    unfold select_word
    rw [verify_data_ok v p hcols hfields]
    dsimp only
    rw [hrows]
    simp only [List.length_nil, List.range_zero, List.filter_nil]
    split_ifs <;> exact hmsg
  · rintro ⟨e, he, f, hf, hmiss⟩
    obtain ⟨msg, hmsg⟩ := verify_data_error_of_missing v p e he f hf hmiss
    have hsel : select_word v p now = .error msg := by
      unfold select_word
      rw [hmsg]
    refine ⟨⟨msg, hsel⟩, ?_⟩
    intro r hr
    rw [hsel] at hr
    exact Except.noConfusion hr

theorem C8_witness :
    select_word ⟨REQUIRED_VOCABULARY_COLUMNS, []⟩ [] 0 = .ok none :=
  (C8_selection_signals ⟨REQUIRED_VOCABULARY_COLUMNS, []⟩ [] 0).1
    (by decide) (by intro e he; simp at he) rfl (by intro e he; simp at he)

/-- A well-formed, never-mastered record whose id points at catalog row 0. -/
def C8_record : WordDict :=
  { attempts := some 1, successes := some 0, interval := some 1,
    last_attempt_was_failure := some false, last_seen := some 0,
    review_intervals := some [], easiness_factor := some 2.5,
    attempt_history := some [] }

def C8_vocab : Vocabulary := ⟨REQUIRED_VOCABULARY_COLUMNS, []⟩

/-- Counterexample to claim C8 as stated: with an empty catalog but a
progress map holding one valid non-mastered record, `select_word` does not
return the "no item available" signal — it reaches the recorded-words
branch and fails with an `IndexError` from `vocabulary.iloc`. -/
theorem C8_counterexample :
    select_word C8_vocab [("000001", C8_record)] 0 =
      .error "single positional indexer is out-of-bounds" ∧
    select_word C8_vocab [("000001", C8_record)] 0 ≠ .ok none := by
  have hnm : ¬ is_mastered C8_record 0 := by
    intro hm
    have h1 := hm.1
    simp [C8_record, MASTERY_MIN_SUCCESSES] at h1
  have hver : verify_data C8_vocab [("000001", C8_record)] = .ok () := rfl
  have hactive : count_active_learning_words [("000001", C8_record)] 0 = 1 := by
    classical
    show (if ¬ is_mastered C8_record 0 ∧ 0 < C8_record.attempts.getD 0
      then 1 else 0) + count_active_learning_words [] 0 = 1
    rw [if_pos ⟨hnm, by decide⟩]
    rfl
  have hcp : calculate_priority (some C8_record) 1 0 = 0 := by
    rw [calculate_priority_some C8_record 1 0 1 rfl]
    norm_num [C8_record]
  have hpri : priorities_list [("000001", C8_record)] 1 0 = [("000001", 0)] := by
    simp only [priorities_list]
    rw [if_neg hnm, hcp]
  have hrec : select_from_recorded C8_vocab [("000001", 0)] =
      .error "single positional indexer is out-of-bounds" := rfl
  have hmain : select_word C8_vocab [("000001", C8_record)] 0 =
      .error "single positional indexer is out-of-bounds" := by
    unfold select_word
    rw [hver]
    dsimp only
    rw [hactive, hpri]
    have hcond : max_priority_of [("000001", 0)] <
        calculate_priority none 1 0 := by
      rw [calculate_priority_none, if_pos (by norm_num [MAX_ACTIVE_WORDS])]
      show max_priority_of [("000001", 0)] < 0.8
      norm_num [max_priority_of]
    rw [if_pos hcond]
    exact hrec
  exact ⟨hmain, by rw [hmain]; intro h; exact Except.noConfusion h⟩

/-! ## Claim C9 -/

/-- Claim C9: `select_word` is deterministic — it is a pure function of the
progress map, the catalog and the evaluation time, with ties among
equal-priority recorded items broken by the fixed insertion order of the
progress map (the stable descending sort of `pick_best`) and no randomness
anywhere, so two calls on identical inputs return the same item. -/
theorem C9_select_word_deterministic (v : Vocabulary)
    (p : List (String × WordDict)) (now : ℚ)
    (r₁ r₂ : Except String (Option VocabWord))
    (h₁ : select_word v p now = r₁) (h₂ : select_word v p now = r₂) :
    r₁ = r₂ := by
  rw [← h₁, ← h₂]

theorem C9_witness :
    select_word ⟨REQUIRED_VOCABULARY_COLUMNS, []⟩ [] 0 =
      select_word ⟨REQUIRED_VOCABULARY_COLUMNS, []⟩ [] 0 :=
  C9_select_word_deterministic ⟨REQUIRED_VOCABULARY_COLUMNS, []⟩ [] 0 _ _
    rfl rfl

end VocabLearning
